import Mathlib

/-!
# Verification of the intersect routing core

Shallow embedding of the algorithmic core of the `intersect` repository
(`src-tauri/src/orchestrator.rs` and `src-tauri/src/lib.rs`):

* the affinity-weight update pipeline (`calculate_variability`,
  `evolve_weights`, `combine_trait_analyses`),
* the transient per-conversation session boosts (`decay_session_weights`),
* the heuristic router (`decide_response_heuristic`),
* the heuristic grounding classifier (`decide_grounding_heuristic`),
* the bounded debate-continuation check (`should_continue_debate`) and the
  debate loop of `send_message`.

Modelling conventions:

* Rust `f64` is modelled as `ℚ` for the routing/grounding/session code
  (whose arithmetic is `+`, `*`, comparisons — exact and executable) and as
  `ℝ` for the weight-evolution code, whose `sqrt` has no exact rational
  counterpart.
* Rust `HashMap<String, _>` registries are modelled as functions
  `String → Option _`; the fixed three-key score/silence maps are modelled
  as three-field structures.
* `Vec::sort_by` with a descending comparator is stable; it is modelled by
  `List.insertionSort` with the relation `fun a b => b.2 ≤ a.2`, which is
  also a stable descending sort, hence produces the same list.
* Rust `i64` message counts are modelled as `ℕ` (counts are non-negative).
-/

/-! ## String helpers (models of Rust `str` operations) -/

/-- Model of Rust `str::to_lowercase` (ASCII-level, which covers every
string the embedded code compares against). -/
def lowerStr (s : String) : String :=
  String.mk (s.toList.map Char.toLower)

/-- Containment of `needle` in `hay` as lists of characters, the model of
Rust `str::contains` for a string pattern. -/
def containsSubList (needle : List Char) : List Char → Bool
  | [] => needle.isEmpty
  | c :: rest => needle.isPrefixOf (c :: rest) || containsSubList needle rest

/-- Model of Rust `hay.contains(needle)`. -/
def strContains (hay needle : String) : Bool :=
  containsSubList needle.toList hay.toList

/-- Model of Rust `str::split_whitespace().count()`: the number of maximal
runs of non-whitespace characters. -/
def wordCount (s : String) : ℕ :=
  (s.toList.foldl
    (fun (st : ℕ × Bool) c =>
      if c.isWhitespace then (st.1, false)
      else if st.2 then (st.1, true) else (st.1 + 1, true))
    (0, false)).1

/-! ## Data model (from `db.rs`, `memory.rs`, `orchestrator.rs`) -/

/-- `db::Message` (db.rs:38-46). -/
structure Message where
  id : String
  conversation_id : String
  role : String
  content : String
  response_type : Option String
  references_message_id : Option String
  timestamp : String
deriving DecidableEq, Repr

/-- `memory::FactSummary` (memory.rs:63-68); `confidence` is unused by the
embedded code paths but kept for structural fidelity. -/
structure FactSummary where
  key : String
  value : String
  confidence : ℚ
deriving DecidableEq, Repr

/-- `memory::PatternSummary` (memory.rs:70-75). -/
structure PatternSummary where
  pattern_type : String
  description : String
  confidence : ℚ
deriving DecidableEq, Repr

/-- `memory::UserProfileSummary` (memory.rs:53-61). The Rust
`HashMap<String, Vec<FactSummary>>` is modelled as an association list; its
order stands for the (unspecified) map iteration order. -/
structure UserProfileSummary where
  facts_by_category : List (String × List FactSummary)
  top_patterns : List PatternSummary
  recurring_themes : List String
  communication_style : Option String
  thinking_preference : Option String
  emotional_tendency : Option String
deriving DecidableEq, Repr

/-- `orchestrator::GroundingDecision` (orchestrator.rs:70-83). -/
structure GroundingDecision where
  grounding_level : String
  relevant_facts : List String
  relevant_patterns : List String
  include_past_context : Bool
deriving DecidableEq, Repr

/-- `orchestrator::OrchestratorDecision` (orchestrator.rs:141-150). -/
structure OrchestratorDecision where
  primary_agent : String
  add_secondary : Bool
  secondary_agent : Option String
  secondary_type : Option String
deriving DecidableEq, Repr

/-- `orchestrator::Agent` (orchestrator.rs:86-91). -/
inductive Agent where
  | Instinct
  | Logic
  | Psyche
deriving DecidableEq, Repr

/-- `Agent::as_str` (orchestrator.rs:94-100). -/
def Agent.as_str : Agent → String
  | .Instinct => "instinct"
  | .Logic => "logic"
  | .Psyche => "psyche"

/-- `Agent::from_str` (orchestrator.rs:102-109). -/
def Agent.from_str (s : String) : Option Agent :=
  if lowerStr s = "instinct" then some .Instinct
  else if lowerStr s = "logic" then some .Logic
  else if lowerStr s = "psyche" then some .Psyche
  else none

/-- `orchestrator::InteractionType` (orchestrator.rs:1211-1215). -/
inductive InteractionType where
  | ChosenAsPrimary
  | ChosenAsSecondary
deriving DecidableEq, Repr

/-! ## Session weights (`lib.rs:20-58`) -/

/-- `decay_session_weights` (lib.rs:33-41): multiply every component of the
entry for `conversation_id` by `0.9`; a missing entry is left untouched.
The process-wide `HashMap` registry is modelled as a function from
conversation ids to optional triples. -/
def decay_session_weights (weights : String → Option (ℚ × ℚ × ℚ))
    (conversation_id : String) : String → Option (ℚ × ℚ × ℚ) :=
  fun k =>
    if k = conversation_id then
      (weights conversation_id).map (fun w => (w.1 * 0.9, w.2.1 * 0.9, w.2.2 * 0.9))
    else weights k

/-! ## Variability and weight evolution (`orchestrator.rs:1217-1266`) -/

/-- `calculate_variability` (orchestrator.rs:1220-1232):
`1 - sqrt(min(total_messages / 10000, 1))`. -/
noncomputable def calculate_variability (total_messages : ℕ) : ℝ :=
  let progress := min ((total_messages : ℝ) / 10000) 1
  1 - Real.sqrt progress

/-- Rust `f64::clamp(lo, hi)` (used at orchestrator.rs:1259-1261, 1530-1532). -/
noncomputable def fclamp (x lo hi : ℝ) : ℝ :=
  if x < lo then lo else if hi < x then hi else x

/-- `evolve_weights` (orchestrator.rs:1235-1266). -/
noncomputable def evolve_weights (current_weights : ℝ × ℝ × ℝ) (agent : Agent)
    (interaction : InteractionType) (total_messages : ℕ) : ℝ × ℝ × ℝ :=
  let base_boost : ℝ :=
    match interaction with
    | .ChosenAsPrimary => 0.02
    | .ChosenAsSecondary => 0.015
  let variability := calculate_variability total_messages
  let adjusted_boost := base_boost * variability
  let (instinct₀, logic₀, psyche₀) := current_weights
  let (instinct₁, logic₁, psyche₁) :=
    match agent with
    | .Instinct => (instinct₀ + adjusted_boost, logic₀, psyche₀)
    | .Logic => (instinct₀, logic₀ + adjusted_boost, psyche₀)
    | .Psyche => (instinct₀, logic₀, psyche₀ + adjusted_boost)
  let instinct₂ := fclamp instinct₁ 0.1 0.6
  let logic₂ := fclamp logic₁ 0.1 0.6
  let psyche₂ := fclamp psyche₁ 0.1 0.6
  let total := instinct₂ + logic₂ + psyche₂
  (instinct₂ / total, logic₂ / total, psyche₂ / total)

/-- `orchestrator::EngagementAnalysis` (orchestrator.rs:1271-1277). -/
structure EngagementAnalysis where
  logic_score : ℝ
  instinct_score : ℝ
  psyche_score : ℝ
  reasoning : String

/-- `orchestrator::IntrinsicTraitAnalysis` (orchestrator.rs:1386-1392). -/
structure IntrinsicTraitAnalysis where
  logic_signal : ℝ
  instinct_signal : ℝ
  psyche_signal : ℝ
  reasoning : String

/-- `combine_trait_analyses` (orchestrator.rs:1494-1537). -/
noncomputable def combine_trait_analyses (current_weights : ℝ × ℝ × ℝ)
    (engagement : Option EngagementAnalysis)
    (intrinsic : Option IntrinsicTraitAnalysis)
    (is_disco : Bool) (total_messages : ℕ) : ℝ × ℝ × ℝ :=
  let variability := calculate_variability total_messages
  let (instinct₀, logic₀, psyche₀) := current_weights
  let (instinct₁, logic₁, psyche₁) :=
    match intrinsic with
    | some intr =>
      let base_boost : ℝ := 0.015
      let logic_delta := intr.logic_signal - 0.33
      let instinct_delta := intr.instinct_signal - 0.33
      let psyche_delta := intr.psyche_signal - 0.33
      (instinct₀ + instinct_delta * base_boost * variability,
       logic₀ + logic_delta * base_boost * variability,
       psyche₀ + psyche_delta * base_boost * variability)
    | none => (instinct₀, logic₀, psyche₀)
  let (instinct₂, logic₂, psyche₂) :=
    match engagement with
    | some eng =>
      let base_boost : ℝ := 0.03
      let multiplier : ℝ := if is_disco then 0.5 else 1.0
      (instinct₁ + eng.instinct_score * base_boost * variability * multiplier,
       logic₁ + eng.logic_score * base_boost * variability * multiplier,
       psyche₁ + eng.psyche_score * base_boost * variability * multiplier)
    | none => (instinct₁, logic₁, psyche₁)
  let instinct₃ := fclamp instinct₂ 0.1 0.6
  let logic₃ := fclamp logic₂ 0.1 0.6
  let psyche₃ := fclamp psyche₂ 0.1 0.6
  let total := instinct₃ + logic₃ + psyche₃
  (instinct₃ / total, logic₃ / total, psyche₃ / total)

/-! ## Heuristic router (`orchestrator.rs:164-374`) -/

/-- The score map built at orchestrator.rs:206-222: one entry per agent key
`"instinct"`, `"logic"`, `"psyche"`. -/
structure Scores where
  instinct : ℚ
  logic : ℚ
  psyche : ℚ
deriving DecidableEq, Repr

/-- `scores.get(name)` on the three-key score map. -/
def Scores.get (s : Scores) (name : String) : Option ℚ :=
  if name = "instinct" then some s.instinct
  else if name = "logic" then some s.logic
  else if name = "psyche" then some s.psyche
  else none

/-- Logic keywords (orchestrator.rs:225-228). -/
def logic_keywords : List String :=
  ["analyze", "think", "logic", "reason", "plan", "step", "how do i",
   "what should", "explain", "break down", "structure", "system", "process", "debug",
   "error", "fix", "code", "data", "numbers", "calculate", "compare", "evaluate",
   "pros and cons", "trade-off", "decision matrix", "framework"]

/-- Instinct keywords (orchestrator.rs:231-233). -/
def instinct_keywords : List String :=
  ["feel", "gut", "quick", "fast", "now", "immediately", "just do",
   "trust", "sense", "vibe", "intuition", "something tells me", "my read", "honestly",
   "straight up", "bottom line", "cut to", "tldr", "short version", "help me"]

/-- Psyche keywords (orchestrator.rs:236-239). -/
def psyche_keywords : List String :=
  ["why", "meaning", "feel about", "emotion", "deeper", "really",
   "underneath", "motivation", "afraid", "worried", "anxious", "happy", "sad", "love",
   "relationship", "self", "identity", "purpose", "value", "matter", "care about",
   "struggle", "conflict", "internal", "therapy", "reflect"]

/-- One keyword loop (orchestrator.rs:243-257): add `0.15` to the running
score for every keyword contained in the lowered message. -/
def keywordFold (msg_lower : String) (keywords : List String) (init : ℚ) : ℚ :=
  keywords.foldl (fun s k => if strContains msg_lower k then s + 0.15 else s) init

/-- The silence map of orchestrator.rs:260-263, one counter per agent. -/
structure SilenceCounts where
  instinct : ℕ
  logic : ℕ
  psyche : ℕ
deriving DecidableEq, Repr

/-- Reset the counter for `role` if it is one of the three agent keys
(orchestrator.rs:272-274). -/
def SilenceCounts.reset (c : SilenceCounts) (role : String) : SilenceCounts :=
  if role = "instinct" then { c with instinct := 0 }
  else if role = "logic" then { c with logic := 0 }
  else if role = "psyche" then { c with psyche := 0 }
  else c

/-- Increment every counter (orchestrator.rs:277-283). -/
def SilenceCounts.incAll (c : SilenceCounts) : SilenceCounts :=
  { instinct := c.instinct + 1, logic := c.logic + 1, psyche := c.psyche + 1 }

/-- The backward walk of orchestrator.rs:265-284, on the already-reversed
history (a user message bumps the turn counter, breaking past 5 turns
before the counters are incremented; a non-system agent role resets its
own counter). -/
def silenceLoop : List Message → SilenceCounts → ℕ → SilenceCounts
  | [], counts, _ => counts
  | m :: rest, counts, user_turns =>
    if m.role = "user" then
      let ut := user_turns + 1
      if 5 < ut then counts
      else silenceLoop rest counts.incAll ut
    else
      let counts := if m.role ≠ "system" then counts.reset m.role else counts
      silenceLoop rest counts user_turns

/-- Per-agent count of consecutive user turns since the agent last spoke
(orchestrator.rs:259-284). -/
def silence_counts (conversation_history : List Message) : SilenceCounts :=
  silenceLoop conversation_history.reverse ⟨0, 0, 0⟩ 0

/-- The complete score computation of orchestrator.rs:203-294: weight (or
inverted weight in disco mode) base, keyword boosts, then a `0.2` boost for
every agent silent for at least 3 user turns. -/
def heuristicScores (msg_lower : String) (weights : ℚ × ℚ × ℚ)
    (conversation_history : List Message) (is_disco : Bool) : Scores :=
  let (instinct_w, logic_w, psyche_w) := weights
  let base : Scores :=
    if is_disco then ⟨1 - instinct_w, 1 - logic_w, 1 - psyche_w⟩
    else ⟨instinct_w, logic_w, psyche_w⟩
  let s₁ := { base with logic := keywordFold msg_lower logic_keywords base.logic }
  let s₂ := { s₁ with instinct := keywordFold msg_lower instinct_keywords s₁.instinct }
  let s₃ := { s₂ with psyche := keywordFold msg_lower psyche_keywords s₂.psyche }
  let sil := silence_counts conversation_history
  { instinct := s₃.instinct + (if 3 ≤ sil.instinct then 0.2 else 0),
    logic := s₃.logic + (if 3 ≤ sil.logic then 0.2 else 0),
    psyche := s₃.psyche + (if 3 ≤ sil.psyche then 0.2 else 0) }

/-- The `match` of orchestrator.rs:304-309 mapping an agent name to the
primary name (identity on the three agent keys, `"logic"` otherwise). -/
def canonName (a : String) : String :=
  if a = "instinct" then "instinct"
  else if a = "logic" then "logic"
  else if a = "psyche" then "psyche"
  else "logic"

/-- One step of the primary-selection walk (orchestrator.rs:300-311): a
strict improvement over the running maximum replaces the current best,
with the agent name passed through the `match` of orchestrator.rs:304-309. -/
def primaryStep (scores : Scores) (best : String × ℚ) (a : String) : String × ℚ :=
  match scores.get a with
  | some score => if best.2 < score then (canonName a, score) else best
  | none => best

/-- Proof-side restatement of `primaryStep` on an already-scored pair;
`foldl_primaryStep_eq_pairs` below shows the walk over the enabled agents
equals the walk over their scored pairs. -/
def primaryStepPair (best : String × ℚ) (p : String × ℚ) : String × ℚ :=
  if best.2 < p.2 then (canonName p.1, p.2) else best

/-- Primary selection (orchestrator.rs:296-312): walk the enabled agents,
keeping the first strict improvement over the running maximum, starting
from the default `("logic", 0.0)`. -/
def selectPrimary (scores : Scores) (active_agents : List String) : String :=
  (active_agents.foldl (primaryStep scores) ("logic", 0)).1

/-- The `(agent, score)` pairs of the enabled agents that have a score
entry (orchestrator.rs:320-322 and 337-339). -/
def scoredAgents (scores : Scores) (active_agents : List String) : List (String × ℚ) :=
  active_agents.filterMap (fun a => (scores.get a).map (fun s => (a, s)))

/-- The descending comparison used to sort scored agents: `a` may come
before `b` when the score of `b` is at most the score of `a`. -/
def scoreGE (a b : String × ℚ) : Prop :=
  b.2 ≤ a.2

instance : DecidableRel scoreGE := fun a b =>
  inferInstanceAs (Decidable (b.2 ≤ a.2))

instance : IsTotal (String × ℚ) scoreGE :=
  ⟨fun a b => (le_total b.2 a.2).imp id id⟩

instance : IsTrans (String × ℚ) scoreGE :=
  ⟨fun _ _ _ hab hbc => le_trans hbc hab⟩

/-- Stable descending sort by score, the model of
`sort_by(|a, b| b.1.partial_cmp(&a.1))` (orchestrator.rs:323, 340). -/
def sortByScoreDesc (pairs : List (String × ℚ)) : List (String × ℚ) :=
  List.insertionSort scoreGE pairs

/-- The close-call test of orchestrator.rs:325-330: the two best scores
differ by less than `0.15`. -/
def closeCall : List (String × ℚ) → Bool
  | a :: b :: _ => a.2 - b.2 < 0.15
  | _ => false

/-- Runner-up selection (orchestrator.rs:342-348): the second sorted agent
unless it is the primary, in which case the third (when present). -/
def pickSecondary (primary : String) : List (String × ℚ) → Option String
  | _ :: b :: c :: _ => if b.1 ≠ primary then some b.1 else some c.1
  | _ :: b :: [] => if b.1 ≠ primary then some b.1 else none
  | _ => none

/-- Secondary selection and decision assembly (orchestrator.rs:314-373). -/
def routeFromScores (scores : Scores) (active_agents : List String)
    (is_disco : Bool) : OrchestratorDecision :=
  let primary := selectPrimary scores active_agents
  let sorted := sortByScoreDesc (scoredAgents scores active_agents)
  let add_secondary : Bool :=
    if is_disco then true
    else if 2 ≤ active_agents.length then closeCall sorted
    else false
  let secondary : Option String :=
    if add_secondary ∧ 2 ≤ active_agents.length then pickSecondary primary sorted
    else none
  { primary_agent := primary,
    add_secondary := secondary.isSome,
    secondary_agent := secondary,
    secondary_type := if secondary.isSome then some "addition" else none }

/-- The "all personas" request patterns (orchestrator.rs:175-181). -/
def allAgentRequest (msg_lower : String) : Bool :=
  strContains msg_lower "all of you" || strContains msg_lower "all three" ||
  strContains msg_lower "each of you" || strContains msg_lower "everyone" ||
  strContains msg_lower "hear from all" || strContains msg_lower "want to hear from each" ||
  strContains msg_lower "all your perspectives"

/-- `decide_response_heuristic` (orchestrator.rs:164-374). The two
`active_agents[0]` accesses sit under guards (`len >= 3`, `len == 1`)
making the list non-empty; they are modelled with `headD`. -/
def decide_response_heuristic (user_message : String) (weights : ℚ × ℚ × ℚ)
    (active_agents : List String) (conversation_history : List Message)
    (is_disco : Bool) : OrchestratorDecision :=
  let msg_lower := lowerStr user_message
  if allAgentRequest msg_lower ∧ 3 ≤ active_agents.length then
    { primary_agent := active_agents.headD "logic",
      add_secondary := true,
      secondary_agent := some "all",
      secondary_type := some "all_agents" }
  else if active_agents.length = 1 then
    { primary_agent := active_agents.headD "logic",
      add_secondary := false,
      secondary_agent := none,
      secondary_type := none }
  else
    routeFromScores (heuristicScores msg_lower weights conversation_history is_disco)
      active_agents is_disco

/-! ## Heuristic grounding (`orchestrator.rs:379-454`) -/

/-- Deep-question indicators (orchestrator.rs:403-405). -/
def deep_indicators : List String :=
  ["why do i", "what does this mean", "help me understand",
   "been thinking about", "struggling with", "pattern", "always", "never",
   "relationship", "therapy", "deeper", "really", "honestly", "truth"]

/-- `decide_grounding_heuristic` (orchestrator.rs:379-454). -/
def decide_grounding_heuristic (user_message : String)
    (conversation_history : List Message)
    (user_profile : Option UserProfileSummary) : GroundingDecision :=
  let msg_lower := lowerStr user_message
  let word_count := wordCount user_message
  let user_message_count :=
    (conversation_history.filter (fun m => m.role == "user")).length
  if user_message_count ≤ 1 then
    { grounding_level := "light", relevant_facts := [],
      relevant_patterns := [], include_past_context := false }
  else
    let has_deep_indicator := deep_indicators.any (fun k => strContains msg_lower k)
    let question_count := user_message.toList.countP (fun c => c = '?')
    let is_complex : Bool := decide (50 < word_count) || decide (2 ≤ question_count) || has_deep_indicator
    let (has_rich_profile, relevant_facts, relevant_patterns) :=
      match user_profile with
      | some p =>
        let total_facts := (p.facts_by_category.map (fun kv => kv.2.length)).sum
        let has_rich : Bool := decide (3 ≤ total_facts) || decide (2 ≤ p.top_patterns.length)
        let facts := (p.facts_by_category.map (fun kv => kv.2.map (fun f => f.key))).flatten
        let patterns := p.top_patterns.map (fun q => q.description)
        (has_rich, facts, patterns)
      | none => (false, [], [])
    if is_complex && has_rich_profile then
      { grounding_level := "deep", relevant_facts := relevant_facts,
        relevant_patterns := relevant_patterns, include_past_context := true }
    else if has_rich_profile || decide (30 < word_count) then
      { grounding_level := "moderate", relevant_facts := relevant_facts.take 5,
        relevant_patterns := relevant_patterns.take 2, include_past_context := false }
    else
      { grounding_level := "light", relevant_facts := [],
        relevant_patterns := [], include_past_context := false }

/-! ## Debate continuation (`orchestrator.rs:717-844`, `lib.rs:1160-1265`) -/

/-- Outcome of the external judgment call inside `should_continue_debate`:
the transport call can fail (`callError`, surfaced to the caller as `Err`
and collapsed by `unwrap_or((false, None, None))` at lib.rs:1187), its
output can fail to parse (`parseError`, orchestrator.rs:839-842), or it
parses to `(continue, next_agent, type)` (orchestrator.rs:811-819). -/
inductive JudgmentOutcome where
  | callError
  | parseError
  | parsed (should_continue : Bool) (next_agent : Option String)
      (response_type : Option String)
deriving DecidableEq, Repr

/-- `should_continue_debate` (orchestrator.rs:717-844) merged with the
caller's `unwrap_or((false, None, None))` on a failed call (lib.rs:1187):
the hard 4-response cap returns early (orchestrator.rs:726-729), a failed
or unparseable judgment does not continue, and a parsed judgment only
continues when its `next_agent` names a currently active agent
(orchestrator.rs:829-837). -/
def should_continue_debate (active_agents : List String)
    (response_count : ℕ) (outcome : JudgmentOutcome) :
    Bool × Option String × Option String :=
  if 4 ≤ response_count then (false, none, none)
  else
    match outcome with
    | .callError => (false, none, none)
    | .parseError => (false, none, none)
    | .parsed c next ty =>
      let validated := next.bind (fun a => if active_agents.contains a then some a else none)
      (c && validated.isSome, validated, ty)

/-- The debate loop of `send_message` (lib.rs:1175-1264), entered with the
primary and secondary responses already produced. `turns` is the list of
loop indices (`0..2` in the source), `oracle` gives the judgment outcome
of each iteration and `gen` the generated response text. A negative
continuation decision or a missing next agent breaks the loop; a next
agent that fails `Agent::from_str` merely skips the iteration. -/
def debate_loop (active_agents : List String) (oracle : ℕ → JudgmentOutcome)
    (gen : ℕ → String) : List ℕ → List (String × String) → List (String × String)
  | [], responses_so_far => responses_so_far
  | t :: ts, responses_so_far =>
    let d := should_continue_debate active_agents responses_so_far.length (oracle t)
    if d.1 then
      match d.2.1 with
      | some next_agent_name =>
        match Agent.from_str next_agent_name with
        | some next_agent =>
          debate_loop active_agents oracle gen ts
            (responses_so_far ++ [(next_agent.as_str, gen t)])
        | none => debate_loop active_agents oracle gen ts responses_so_far
      | none => responses_so_far
    else responses_so_far

/-- The full debate phase of one turn (lib.rs:1174-1264): at most the two
loop iterations `0` and `1` beyond the initial responses. -/
def send_message_debate (active_agents : List String)
    (oracle : ℕ → JudgmentOutcome) (gen : ℕ → String)
    (initial_responses : List (String × String)) : List (String × String) :=
  debate_loop active_agents oracle gen [0, 1] initial_responses

/-! ## Helper lemmas -/

lemma fclamp_mem (x : ℝ) {lo hi : ℝ} (h : lo ≤ hi) :
    lo ≤ fclamp x lo hi ∧ fclamp x lo hi ≤ hi := by
  unfold fclamp
  split_ifs <;> constructor <;> linarith

lemma normalize_bounds {i l p : ℝ} (hi₀ : 0.1 ≤ i) (hi₁ : i ≤ 0.6)
    (hl₀ : 0.1 ≤ l) (hl₁ : l ≤ 0.6) (hp₀ : 0.1 ≤ p) (hp₁ : p ≤ 0.6) :
    i / (i + l + p) + l / (i + l + p) + p / (i + l + p) = 1 ∧
    (1/13 ≤ i / (i + l + p) ∧ i / (i + l + p) ≤ 3/4) ∧
    (1/13 ≤ l / (i + l + p) ∧ l / (i + l + p) ≤ 3/4) ∧
    (1/13 ≤ p / (i + l + p) ∧ p / (i + l + p) ≤ 3/4) := by
  have ht : 0 < i + l + p := by linarith
  refine ⟨?_, ⟨?_, ?_⟩, ⟨?_, ?_⟩, ⟨?_, ?_⟩⟩
  · field_simp
  all_goals first
    | (rw [le_div_iff₀ ht]; linarith)
    | (rw [div_le_iff₀ ht]; linarith)

lemma combine_shape (cw : ℝ × ℝ × ℝ) (eng : Option EngagementAnalysis)
    (intr : Option IntrinsicTraitAnalysis) (disco : Bool) (msgs : ℕ) :
    ∃ a b c : ℝ,
      combine_trait_analyses cw eng intr disco msgs =
        (fclamp a 0.1 0.6 / (fclamp a 0.1 0.6 + fclamp b 0.1 0.6 + fclamp c 0.1 0.6),
         fclamp b 0.1 0.6 / (fclamp a 0.1 0.6 + fclamp b 0.1 0.6 + fclamp c 0.1 0.6),
         fclamp c 0.1 0.6 / (fclamp a 0.1 0.6 + fclamp b 0.1 0.6 + fclamp c 0.1 0.6)) := by
  obtain ⟨i₀, l₀, p₀⟩ := cw
  cases intr <;> cases eng <;> exact ⟨_, _, _, rfl⟩

lemma evolve_shape (cw : ℝ × ℝ × ℝ) (agent : Agent) (inter : InteractionType)
    (msgs : ℕ) :
    ∃ a b c : ℝ,
      evolve_weights cw agent inter msgs =
        (fclamp a 0.1 0.6 / (fclamp a 0.1 0.6 + fclamp b 0.1 0.6 + fclamp c 0.1 0.6),
         fclamp b 0.1 0.6 / (fclamp a 0.1 0.6 + fclamp b 0.1 0.6 + fclamp c 0.1 0.6),
         fclamp c 0.1 0.6 / (fclamp a 0.1 0.6 + fclamp b 0.1 0.6 + fclamp c 0.1 0.6)) := by
  obtain ⟨i₀, l₀, p₀⟩ := cw
  cases agent <;> cases inter <;> exact ⟨_, _, _, rfl⟩

lemma clamped_triple_bounds (a b c : ℝ) :
    (fclamp a 0.1 0.6 / (fclamp a 0.1 0.6 + fclamp b 0.1 0.6 + fclamp c 0.1 0.6)) +
      (fclamp b 0.1 0.6 / (fclamp a 0.1 0.6 + fclamp b 0.1 0.6 + fclamp c 0.1 0.6)) +
      (fclamp c 0.1 0.6 / (fclamp a 0.1 0.6 + fclamp b 0.1 0.6 + fclamp c 0.1 0.6)) = 1 ∧
    (1/13 ≤ fclamp a 0.1 0.6 / (fclamp a 0.1 0.6 + fclamp b 0.1 0.6 + fclamp c 0.1 0.6) ∧
     fclamp a 0.1 0.6 / (fclamp a 0.1 0.6 + fclamp b 0.1 0.6 + fclamp c 0.1 0.6) ≤ 3/4) ∧
    (1/13 ≤ fclamp b 0.1 0.6 / (fclamp a 0.1 0.6 + fclamp b 0.1 0.6 + fclamp c 0.1 0.6) ∧
     fclamp b 0.1 0.6 / (fclamp a 0.1 0.6 + fclamp b 0.1 0.6 + fclamp c 0.1 0.6) ≤ 3/4) ∧
    (1/13 ≤ fclamp c 0.1 0.6 / (fclamp a 0.1 0.6 + fclamp b 0.1 0.6 + fclamp c 0.1 0.6) ∧
     fclamp c 0.1 0.6 / (fclamp a 0.1 0.6 + fclamp b 0.1 0.6 + fclamp c 0.1 0.6) ≤ 3/4) := by
  have h : (0.1 : ℝ) ≤ 0.6 := by norm_num
  obtain ⟨ha₀, ha₁⟩ := fclamp_mem a h
  obtain ⟨hb₀, hb₁⟩ := fclamp_mem b h
  obtain ⟨hc₀, hc₁⟩ := fclamp_mem c h
  exact normalize_bounds ha₀ ha₁ hb₀ hb₁ hc₀ hc₁

/-! ## Claim C7: variability contract -/

/-- C7: `calculate_variability` satisfies its contract: value `1.0` at zero
messages, non-increasing in the message count, exactly `0.0` at and above
the 10000-message ceiling, and always within `[0, 1]`. -/
theorem calculate_variability_contract :
    calculate_variability 0 = 1 ∧
    (∀ m₁ m₂ : ℕ, m₁ ≤ m₂ → calculate_variability m₂ ≤ calculate_variability m₁) ∧
    (∀ m : ℕ, 10000 ≤ m → calculate_variability m = 0) ∧
    (∀ m : ℕ, 0 ≤ calculate_variability m ∧ calculate_variability m ≤ 1) := by
  refine ⟨?_, ?_, ?_, ?_⟩
  · simp [calculate_variability]
  · intro m₁ m₂ h
    unfold calculate_variability
    have hc : (m₁ : ℝ) ≤ (m₂ : ℝ) := by exact_mod_cast h
    have hmin : min ((m₁ : ℝ) / 10000) 1 ≤ min ((m₂ : ℝ) / 10000) 1 :=
      min_le_min (by linarith) le_rfl
    have := Real.sqrt_le_sqrt hmin
    simp only
    linarith
  · intro m h
    unfold calculate_variability
    have hc : (10000 : ℝ) ≤ (m : ℝ) := by exact_mod_cast h
    have h1 : (1 : ℝ) ≤ (m : ℝ) / 10000 := by
      rw [le_div_iff₀ (by norm_num : (0:ℝ) < 10000)]
      linarith
    simp only [min_eq_right h1, Real.sqrt_one, sub_self]
  · intro m
    unfold calculate_variability
    have h1 : min ((m : ℝ) / 10000) 1 ≤ 1 := min_le_right _ _
    have hs0 : 0 ≤ Real.sqrt (min ((m : ℝ) / 10000) 1) := Real.sqrt_nonneg _
    have hs1 : Real.sqrt (min ((m : ℝ) / 10000) 1) ≤ 1 := Real.sqrt_le_one.mpr h1
    constructor <;> simp only <;> linarith

/-- Witness for C7 at concrete message counts. -/
theorem calculate_variability_contract_witness :
    calculate_variability 7 ≤ calculate_variability 5 ∧
    calculate_variability 12000 = 0 :=
  ⟨calculate_variability_contract.2.1 5 7 (by norm_num),
   calculate_variability_contract.2.2.1 12000 (by norm_num)⟩

/-! ## Claim C8: session-boost decay -/

/-- C8: `decay_session_weights` multiplies all three components of the
named conversation's entry by `0.9`; a missing conversation id leaves the
registry unchanged; and for an entry with positive components, the `n`-th
repeated decay yields exactly the `0.9^n`-scaled components, which stay
positive (sign never flips) and strictly decrease at every further call. -/
theorem decay_session_weights_spec :
    (∀ (w : String → Option (ℚ × ℚ × ℚ)) (cid : String) (i l p : ℚ),
      w cid = some (i, l, p) →
      decay_session_weights w cid cid = some (i * 0.9, l * 0.9, p * 0.9)) ∧
    (∀ (w : String → Option (ℚ × ℚ × ℚ)) (cid : String),
      w cid = none → decay_session_weights w cid = w) ∧
    (∀ (w : String → Option (ℚ × ℚ × ℚ)) (cid : String) (i l p : ℚ) (n : ℕ),
      w cid = some (i, l, p) → 0 < i → 0 < l → 0 < p →
      ((fun r => decay_session_weights r cid)^[n] w) cid
          = some (i * 0.9 ^ n, l * 0.9 ^ n, p * 0.9 ^ n) ∧
      (0 < i * 0.9 ^ n ∧ 0 < l * 0.9 ^ n ∧ 0 < p * 0.9 ^ n) ∧
      (i * 0.9 ^ (n + 1) < i * 0.9 ^ n ∧ l * 0.9 ^ (n + 1) < l * 0.9 ^ n ∧
        p * 0.9 ^ (n + 1) < p * 0.9 ^ n)) := by
  have hpow : ∀ n : ℕ, (0 : ℚ) < 0.9 ^ n := fun n => pow_pos (by norm_num) n
  have hdec : ∀ n : ℕ, (0.9 : ℚ) ^ (n + 1) < 0.9 ^ n := by
    intro n
    calc (0.9 : ℚ) ^ (n + 1) = 0.9 ^ n * 0.9 := by ring
    _ < 0.9 ^ n * 1 := by
        apply mul_lt_mul_of_pos_left (by norm_num) (hpow n)
    _ = 0.9 ^ n := by ring
  refine ⟨?_, ?_, ?_⟩
  · intro w cid i l p h
    simp [decay_session_weights, h]
  · intro w cid h
    funext k
    simp only [decay_session_weights]
    split_ifs with hk
    · subst hk; rw [h]; rfl
    · rfl
  · intro w cid i l p n h hi hl hp
    refine ⟨?_, ⟨?_, ?_, ?_⟩, ?_, ?_, ?_⟩
    · induction n with
      | zero => simpa using h
      | succ n ih =>
        rw [Function.iterate_succ_apply']
        simp only [decay_session_weights, if_pos rfl, ih, Option.map_some]
        refine congrArg some ?_
        refine Prod.ext ?_ (Prod.ext ?_ ?_) <;> simp <;> ring
    all_goals
      first
        | exact mul_pos hi (hpow n)
        | exact mul_pos hl (hpow n)
        | exact mul_pos hp (hpow n)
        | exact mul_lt_mul_of_pos_left (hdec n) hi
        | exact mul_lt_mul_of_pos_left (hdec n) hl
        | exact mul_lt_mul_of_pos_left (hdec n) hp

/-- Witness for C8: two decays of a registry holding `(1, 2, 3)` for
conversation `"c"`. -/
theorem decay_session_weights_spec_witness :
    ((fun r => decay_session_weights r "c")^[2]
        (fun k => if k = "c" then some ((1 : ℚ), (2 : ℚ), (3 : ℚ)) else none)) "c"
      = some (1 * 0.9 ^ 2, 2 * 0.9 ^ 2, 3 * 0.9 ^ 2) :=
  (decay_session_weights_spec.2.2 _ "c" 1 2 3 2 (by simp) (by norm_num)
    (by norm_num) (by norm_num)).1

/-! ## Claim C9: router determinism -/

/-- C9: the heuristic router is a pure function — two runs on identical
inputs (message, combined weights, enabled personas, history, challenge
flag) return identical decisions; the embedding takes no oracle and uses
no randomness. -/
theorem decide_response_heuristic_deterministic
    (m₁ m₂ : String) (w₁ w₂ : ℚ × ℚ × ℚ) (a₁ a₂ : List String)
    (h₁ h₂ : List Message) (d₁ d₂ : Bool)
    (hm : m₁ = m₂) (hw : w₁ = w₂) (ha : a₁ = a₂) (hh : h₁ = h₂) (hd : d₁ = d₂) :
    decide_response_heuristic m₁ w₁ a₁ h₁ d₁
      = decide_response_heuristic m₂ w₂ a₂ h₂ d₂ := by
  subst hm; subst hw; subst ha; subst hh; subst hd; rfl

/-- Witness for C9 at a concrete pair of identical runs. -/
theorem decide_response_heuristic_deterministic_witness :
    decide_response_heuristic "hello" (0.2, 0.5, 0.3)
        ["instinct", "logic", "psyche"] [] false
      = decide_response_heuristic "hello" (0.2, 0.5, 0.3)
        ["instinct", "logic", "psyche"] [] false :=
  decide_response_heuristic_deterministic _ _ _ _ _ _ _ _ _ _
    rfl rfl rfl rfl rfl

/-! ## Claim C6: first-turn grounding -/

/-- C6: whenever the history holds at most one user message, the grounding
classifier returns `light` with empty fact and pattern lists and no past
context, for every message text and every profile. -/
theorem decide_grounding_heuristic_first_turn (user_message : String)
    (conversation_history : List Message)
    (user_profile : Option UserProfileSummary)
    (h : (conversation_history.filter (fun m => m.role == "user")).length ≤ 1) :
    decide_grounding_heuristic user_message conversation_history user_profile
      = { grounding_level := "light", relevant_facts := [],
          relevant_patterns := [], include_past_context := false } := by
  unfold decide_grounding_heuristic
  simp only [if_pos h]

/-- Witness for C6: a first user turn with a rich profile (three facts and
two patterns) and a long, question-laden, introspective message still
grounds `light`. -/
theorem decide_grounding_heuristic_first_turn_witness :
    decide_grounding_heuristic
        "why do i always really struggle with this? and why? honestly?"
        [⟨"m1", "c1", "user", "hi", none, none, "t"⟩]
        (some ⟨[("personal", [⟨"k1", "v1", 1⟩, ⟨"k2", "v2", 1⟩, ⟨"k3", "v3", 1⟩])],
               [⟨"communication_style", "d1", 1⟩, ⟨"thinking_mode", "d2", 1⟩],
               [], none, none, none⟩)
      = { grounding_level := "light", relevant_facts := [],
          relevant_patterns := [], include_past_context := false } :=
  decide_grounding_heuristic_first_turn _ _ _ (by decide)

/-! ## Claim C5: fail-closed continuation -/

/-- C5: the continuation check never continues on a failed or invalid
judgment: a failed external call and an unparseable reply both yield
"do not continue" with no next responder, and a parsed judgment whose
`next_agent` is absent or not in the enabled set is treated as terminated. -/
theorem should_continue_debate_fail_closed :
    (∀ (active : List String) (count : ℕ),
      should_continue_debate active count .callError = (false, none, none)) ∧
    (∀ (active : List String) (count : ℕ),
      should_continue_debate active count .parseError = (false, none, none)) ∧
    (∀ (active : List String) (count : ℕ) (c : Bool) (ty : Option String),
      (should_continue_debate active count (.parsed c none ty)).1 = false ∧
      (should_continue_debate active count (.parsed c none ty)).2.1 = none) ∧
    (∀ (active : List String) (count : ℕ) (c : Bool) (a : String)
      (ty : Option String), a ∉ active →
      (should_continue_debate active count (.parsed c (some a) ty)).1 = false ∧
      (should_continue_debate active count (.parsed c (some a) ty)).2.1 = none) := by
  refine ⟨?_, ?_, ?_, ?_⟩
  · intro active count
    unfold should_continue_debate
    split_ifs <;> rfl
  · intro active count
    unfold should_continue_debate
    split_ifs <;> rfl
  · intro active count c ty
    unfold should_continue_debate
    split_ifs <;> simp
  · intro active count c a ty ha
    have hc : active.contains a = false := by
      simpa using ha
    unfold should_continue_debate
    split_ifs <;> simp [hc, ha]

/-- Witness for C5: a judgment asking to continue with a persona outside
the enabled set does not continue. -/
theorem should_continue_debate_fail_closed_witness :
    (should_continue_debate ["instinct", "logic"] 2
        (.parsed true (some "ghost") (some "rebuttal"))).1 = false ∧
    (should_continue_debate ["instinct", "logic"] 2
        (.parsed true (some "ghost") (some "rebuttal"))).2.1 = none :=
  should_continue_debate_fail_closed.2.2.2 ["instinct", "logic"] 2 true "ghost"
    (some "rebuttal") (by decide)

/-! ## Claim C3: four-response cap -/

lemma debate_loop_length_le (active : List String) (oracle : ℕ → JudgmentOutcome)
    (gen : ℕ → String) :
    ∀ (ts : List ℕ) (rs : List (String × String)),
      (debate_loop active oracle gen ts rs).length ≤ rs.length + ts.length := by
  intro ts
  induction ts with
  | nil => intro rs; simp [debate_loop]
  | cons t ts ih =>
    intro rs
    unfold debate_loop
    by_cases h1 : (should_continue_debate active rs.length (oracle t)).1
    · simp only [h1, if_true]
      rcases hnext : (should_continue_debate active rs.length (oracle t)).2.1
        with _ | name
      · simp only [hnext, List.length_cons]
        omega
      · simp only [hnext]
        rcases hagent : Agent.from_str name with _ | ag
        · simp only [hagent]
          have := ih rs
          simp only [List.length_cons]
          omega
        · simp only [hagent]
          have := ih (rs ++ [(ag.as_str, gen t)])
          simp only [List.length_append, List.length_cons, List.length_nil]
            at this ⊢
          omega
    · rw [if_neg h1]
      simp only [List.length_cons]
      omega

/-- C3: for every sequence of judgment outcomes (including one that always
answers "continue"), the debate phase adds at most two responses to the
initial pair — so a turn that starts from the primary+secondary pair ends
with at most 4 responses — and the continuation check refuses to continue
whenever 4 responses already exist. -/
theorem debate_cap_four :
    (∀ (active : List String) (oracle : ℕ → JudgmentOutcome) (gen : ℕ → String)
      (init : List (String × String)),
      (send_message_debate active oracle gen init).length ≤ init.length + 2) ∧
    (∀ (active : List String) (oracle : ℕ → JudgmentOutcome) (gen : ℕ → String)
      (init : List (String × String)), init.length = 2 →
      (send_message_debate active oracle gen init).length ≤ 4) ∧
    (∀ (active : List String) (count : ℕ) (o : JudgmentOutcome), 4 ≤ count →
      should_continue_debate active count o = (false, none, none)) := by
  refine ⟨?_, ?_, ?_⟩
  · intro active oracle gen init
    simpa using debate_loop_length_le active oracle gen [0, 1] init
  · intro active oracle gen init h
    have := debate_loop_length_le active oracle gen [0, 1] init
    simp only [List.length_cons, List.length_nil] at this
    simp only [send_message_debate]
    omega
  · intro active count o h
    unfold should_continue_debate
    rw [if_pos h]

/-- Witness for C3: an always-continue judgment naming a valid persona
drives a primary+secondary turn to exactly 4 responses, within the bound. -/
theorem debate_cap_four_witness :
    (send_message_debate ["instinct", "logic", "psyche"]
        (fun _ => .parsed true (some "logic") (some "rebuttal")) (fun _ => "x")
        [("instinct", "a"), ("logic", "b")]).length = 4 ∧
    (send_message_debate ["instinct", "logic", "psyche"]
        (fun _ => .parsed true (some "logic") (some "rebuttal")) (fun _ => "x")
        [("instinct", "a"), ("logic", "b")]).length ≤ 4 :=
  ⟨by decide,
   debate_cap_four.2.1 ["instinct", "logic", "psyche"]
     (fun _ => .parsed true (some "logic") (some "rebuttal")) (fun _ => "x")
     [("instinct", "a"), ("logic", "b")] rfl⟩

/-! ## Claim C1: clamp-then-normalize bounds -/

/-- C1 (amended): both weight-update routines clamp each component to
`[0.10, 0.60]` and then normalize; the output triple always sums to `1`
and each component lies in `[1/13, 3/4]` for every starting triple and
every delta input — but, as `combine_trait_analyses_breaks_range` shows,
the final components need not stay inside `[0.10, 0.60]`. -/
theorem weight_update_sum_one_and_bounded :
    ∀ (cw : ℝ × ℝ × ℝ) (eng : Option EngagementAnalysis)
      (intr : Option IntrinsicTraitAnalysis) (disco : Bool) (msgs : ℕ)
      (agent : Agent) (inter : InteractionType),
      ((combine_trait_analyses cw eng intr disco msgs).1
          + (combine_trait_analyses cw eng intr disco msgs).2.1
          + (combine_trait_analyses cw eng intr disco msgs).2.2 = 1 ∧
        (1/13 ≤ (combine_trait_analyses cw eng intr disco msgs).1 ∧
          (combine_trait_analyses cw eng intr disco msgs).1 ≤ 3/4) ∧
        (1/13 ≤ (combine_trait_analyses cw eng intr disco msgs).2.1 ∧
          (combine_trait_analyses cw eng intr disco msgs).2.1 ≤ 3/4) ∧
        (1/13 ≤ (combine_trait_analyses cw eng intr disco msgs).2.2 ∧
          (combine_trait_analyses cw eng intr disco msgs).2.2 ≤ 3/4)) ∧
      ((evolve_weights cw agent inter msgs).1
          + (evolve_weights cw agent inter msgs).2.1
          + (evolve_weights cw agent inter msgs).2.2 = 1 ∧
        (1/13 ≤ (evolve_weights cw agent inter msgs).1 ∧
          (evolve_weights cw agent inter msgs).1 ≤ 3/4) ∧
        (1/13 ≤ (evolve_weights cw agent inter msgs).2.1 ∧
          (evolve_weights cw agent inter msgs).2.1 ≤ 3/4) ∧
        (1/13 ≤ (evolve_weights cw agent inter msgs).2.2 ∧
          (evolve_weights cw agent inter msgs).2.2 ≤ 3/4)) := by
  intro cw eng intr disco msgs agent inter
  constructor
  · obtain ⟨a, b, c, hshape⟩ := combine_shape cw eng intr disco msgs
    rw [hshape]
    exact clamped_triple_bounds a b c
  · obtain ⟨a, b, c, hshape⟩ := evolve_shape cw agent inter msgs
    rw [hshape]
    exact clamped_triple_bounds a b c

/-- Counterexample to C1 as stated: starting from the valid weight triple
`(0.1, 0.1, 0.6)` with a neutral delta (engagement scores `0`, intrinsic
signals exactly `0.33`), `combine_trait_analyses` returns third component
`3/4`, outside `[0.10, 0.60]`. -/
theorem combine_trait_analyses_breaks_range :
    (combine_trait_analyses (0.1, 0.1, 0.6) (some ⟨0, 0, 0, ""⟩)
        (some ⟨0.33, 0.33, 0.33, ""⟩) false 0).2.2 = 3/4 ∧
    ¬ ((combine_trait_analyses (0.1, 0.1, 0.6) (some ⟨0, 0, 0, ""⟩)
        (some ⟨0.33, 0.33, 0.33, ""⟩) false 0).2.2 ≤ 0.6) := by
  have hval : (combine_trait_analyses (0.1, 0.1, 0.6) (some ⟨0, 0, 0, ""⟩)
      (some ⟨0.33, 0.33, 0.33, ""⟩) false 0).2.2 = 3/4 := by
    simp only [combine_trait_analyses]
    norm_num [fclamp]
  refine ⟨hval, ?_⟩
  rw [hval]
  norm_num

/-! ## Router analysis lemmas -/

lemma Scores.get_valid {s : Scores} {a : String} {sc : ℚ} (h : s.get a = some sc) :
    a = "instinct" ∨ a = "logic" ∨ a = "psyche" := by
  unfold Scores.get at h
  split_ifs at h with h1 h2 h3
  · exact Or.inl h1
  · exact Or.inr (Or.inl h2)
  · exact Or.inr (Or.inr h3)

lemma Scores.get_of_valid (s : Scores) {a : String}
    (h : a = "instinct" ∨ a = "logic" ∨ a = "psyche") :
    ∃ sc, s.get a = some sc := by
  rcases h with rfl | rfl | rfl <;> simp [Scores.get]

lemma canonName_valid {a : String}
    (h : a = "instinct" ∨ a = "logic" ∨ a = "psyche") : canonName a = a := by
  rcases h with rfl | rfl | rfl <;> simp [canonName]

lemma mem_scoredAgents {s : Scores} {active : List String} {p : String × ℚ} :
    p ∈ scoredAgents s active ↔ p.1 ∈ active ∧ s.get p.1 = some p.2 := by
  obtain ⟨a, sc⟩ := p
  simp only [scoredAgents, List.mem_filterMap]
  constructor
  · rintro ⟨x, hx, hmap⟩
    rcases hget : s.get x with _ | sc2
    · rw [hget] at hmap; simp at hmap
    · rw [hget] at hmap
      simp only [Option.map_some', Option.some.injEq, Prod.mk.injEq] at hmap
      obtain ⟨rfl, rfl⟩ := hmap
      exact ⟨hx, hget⟩
  · rintro ⟨ha, hget⟩
    exact ⟨a, ha, by rw [hget]; rfl⟩

lemma scoredAgents_fst_sublist (s : Scores) (active : List String) :
    ((scoredAgents s active).map Prod.fst).Sublist active := by
  induction active with
  | nil => simp [scoredAgents]
  | cons a t ih =>
    simp only [scoredAgents, List.filterMap_cons] at ih ⊢
    cases h : s.get a with
    | none => exact ih.cons a
    | some sc =>
      simp only [Option.map_some', List.map_cons]
      exact ih.cons₂ a

lemma scoredAgents_length {s : Scores} {active : List String}
    (h : ∀ x ∈ active, ∃ sc, s.get x = some sc) :
    (scoredAgents s active).length = active.length := by
  induction active with
  | nil => rfl
  | cons a t ih =>
    obtain ⟨sc, hsc⟩ := h a (by simp)
    have hcons : scoredAgents s (a :: t) = (a, sc) :: scoredAgents s t := by
      simp [scoredAgents, List.filterMap_cons, hsc]
    rw [hcons, List.length_cons, List.length_cons,
      ih (fun x hx => h x (by simp [hx]))]

lemma sortByScoreDesc_perm (l : List (String × ℚ)) :
    List.Perm (sortByScoreDesc l) l :=
  List.perm_insertionSort scoreGE l

lemma sortByScoreDesc_sorted (l : List (String × ℚ)) :
    List.Sorted scoreGE (sortByScoreDesc l) :=
  List.sorted_insertionSort scoreGE l

lemma sortByScoreDesc_fst_nodup {s : Scores} {active : List String}
    (hnd : active.Nodup) :
    ((sortByScoreDesc (scoredAgents s active)).map Prod.fst).Nodup := by
  have hperm : List.Perm ((sortByScoreDesc (scoredAgents s active)).map Prod.fst)
      ((scoredAgents s active).map Prod.fst) := (sortByScoreDesc_perm _).map _
  exact hperm.nodup_iff.mpr ((scoredAgents_fst_sublist s active).nodup hnd)

lemma sortByScoreDesc_head_decomp :
    ∀ (l : List (String × ℚ)) (A : String × ℚ) (rest : List (String × ℚ)),
      sortByScoreDesc l = A :: rest →
      ∃ l₁ l₂, l = l₁ ++ A :: l₂ ∧ (∀ q ∈ l₁, q.2 < A.2) ∧ ∀ q ∈ l, q.2 ≤ A.2 := by
  intro l
  induction l with
  | nil => intro A rest h; simp [sortByScoreDesc, List.insertionSort] at h
  | cons x t ih =>
    intro A rest h
    rw [sortByScoreDesc, List.insertionSort] at h
    cases hst : List.insertionSort scoreGE t with
    | nil =>
      have ht : t = [] := by
        have hp := List.perm_insertionSort scoreGE t
        rw [hst] at hp
        exact (hp.symm).eq_nil
      rw [hst, List.orderedInsert_nil] at h
      obtain ⟨rfl, rfl⟩ : x = A ∧ [] = rest := by
        injection h with h1 h2; exact ⟨h1, h2⟩
      subst ht
      exact ⟨[], [], by simp, by simp, by intro q hq; simp at hq; subst hq; exact le_rfl⟩
    | cons B rest2 =>
      obtain ⟨t₁, t₂, hteq, ht1, ht2⟩ := ih B rest2 (by rw [sortByScoreDesc]; exact hst)
      rw [hst, List.orderedInsert] at h
      by_cases hxB : scoreGE x B
      · rw [if_pos hxB] at h
        obtain ⟨rfl, rfl⟩ : x = A ∧ B :: rest2 = rest := by
          injection h with h1 h2; exact ⟨h1, h2⟩
        refine ⟨[], t, by simp, by simp, ?_⟩
        intro q hq
        rcases List.mem_cons.mp hq with rfl | hq
        · exact le_rfl
        · exact le_trans (ht2 q hq) hxB
      · rw [if_neg hxB] at h
        have hBA : B = A := by injection h
        subst hBA
        have hxB2 : x.2 < B.2 := lt_of_not_le (by simpa [scoreGE] using hxB)
        refine ⟨x :: t₁, t₂, by rw [hteq]; rfl, ?_, ?_⟩
        · intro q hq
          rcases List.mem_cons.mp hq with rfl | hq
          · exact hxB2
          · exact ht1 q hq
        · intro q hq
          rcases List.mem_cons.mp hq with rfl | hq
          · exact le_of_lt hxB2
          · exact ht2 q hq

lemma foldl_primaryStep_eq_pairs (s : Scores) :
    ∀ (active : List String) (init : String × ℚ),
      active.foldl (primaryStep s) init
        = (scoredAgents s active).foldl primaryStepPair init := by
  intro active
  induction active with
  | nil => intro init; rfl
  | cons a t ih =>
    intro init
    simp only [List.foldl_cons, scoredAgents, List.filterMap_cons] at ih ⊢
    cases h : s.get a with
    | none =>
      rw [show primaryStep s init a = init by simp [primaryStep, h]]
      exact ih init
    | some sc =>
      simp only [Option.map_some', List.foldl_cons]
      rw [show primaryStep s init a = primaryStepPair init (a, sc) by
        simp [primaryStep, primaryStepPair, h]]
      exact ih (primaryStepPair init (a, sc))

lemma foldPair_stays : ∀ (l : List (String × ℚ)) (p : String) (m : ℚ),
    (∀ q ∈ l, q.2 ≤ m) → l.foldl primaryStepPair (p, m) = (p, m) := by
  intro l
  induction l with
  | nil => intros; rfl
  | cons x t ih =>
    intro p m hb
    simp only [List.foldl_cons]
    rw [show primaryStepPair (p, m) x = (p, m) by
      simp [primaryStepPair, not_lt.mpr (hb x (by simp))]]
    exact ih p m (fun q hq => hb q (by simp [hq]))

lemma foldPair_upto : ∀ (l : List (String × ℚ)) (p : String) (m c : ℚ),
    m < c → (∀ q ∈ l, q.2 < c) →
    ∃ p2 m2, l.foldl primaryStepPair (p, m) = (p2, m2) ∧ m2 < c := by
  intro l
  induction l with
  | nil => intro p m c hm _; exact ⟨p, m, rfl, hm⟩
  | cons x t ih =>
    intro p m c hm hb
    simp only [List.foldl_cons]
    by_cases h : m < x.2
    · rw [show primaryStepPair (p, m) x = (canonName x.1, x.2) by
        simp [primaryStepPair, h]]
      exact ih _ _ c (hb x (by simp)) (fun q hq => hb q (by simp [hq]))
    · rw [show primaryStepPair (p, m) x = (p, m) by simp [primaryStepPair, h]]
      exact ih p m c hm (fun q hq => hb q (by simp [hq]))

lemma foldPair_first_max (l₁ l₂ : List (String × ℚ)) (A : String × ℚ)
    (p : String) (m : ℚ) (hm : m < A.2) (h1 : ∀ q ∈ l₁, q.2 < A.2)
    (h2 : ∀ q ∈ l₂, q.2 ≤ A.2) :
    (l₁ ++ A :: l₂).foldl primaryStepPair (p, m) = (canonName A.1, A.2) := by
  rw [List.foldl_append]
  obtain ⟨p2, m2, heq, hlt⟩ := foldPair_upto l₁ p m A.2 hm h1
  rw [heq]
  simp only [List.foldl_cons]
  rw [show primaryStepPair (p2, m2) A = (canonName A.1, A.2) by
    simp [primaryStepPair, hlt]]
  exact foldPair_stays l₂ _ _ h2

lemma selectPrimary_eq_head {s : Scores} {active : List String} {A : String × ℚ}
    {rest : List (String × ℚ)}
    (hsort : sortByScoreDesc (scoredAgents s active) = A :: rest)
    (hpos : 0 < A.2) :
    selectPrimary s active = A.1 := by
  obtain ⟨l₁, l₂, hdecomp, hlt, hle⟩ := sortByScoreDesc_head_decomp _ A rest hsort
  have hmem : A ∈ scoredAgents s active := by rw [hdecomp]; simp
  have hget := (mem_scoredAgents.mp hmem).2
  unfold selectPrimary
  rw [foldl_primaryStep_eq_pairs, hdecomp,
    foldPair_first_max l₁ l₂ A _ _ hpos hlt
      (fun q hq => hle q (by rw [hdecomp]; simp [hq]))]
  exact canonName_valid (Scores.get_valid hget)

/-! ## Score evaluation lemmas -/

lemma keywordFold_eq : ∀ (kws : List String) (msg : String) (init : ℚ),
    keywordFold msg kws init
      = init + 0.15 * ((kws.countP (fun k => strContains msg k) : ℕ) : ℚ) := by
  intro kws
  induction kws with
  | nil => intro msg init; simp [keywordFold]
  | cons k t ih =>
    intro msg init
    simp only [keywordFold, List.foldl_cons, List.countP_cons] at ih ⊢
    cases h : strContains msg k with
    | true =>
      simp only [if_true]
      rw [ih]
      push_cast
      ring
    | false =>
      rw [if_neg (by simp), ih]
      norm_num

lemma heuristicScores_eval (msg : String) (wi wl wp : ℚ) (hist : List Message)
    (disco : Bool) :
    heuristicScores msg (wi, wl, wp) hist disco =
      { instinct := (if disco then 1 - wi else wi)
          + 0.15 * ((instinct_keywords.countP (fun k => strContains msg k) : ℕ) : ℚ)
          + (if 3 ≤ (silence_counts hist).instinct then 0.2 else 0),
        logic := (if disco then 1 - wl else wl)
          + 0.15 * ((logic_keywords.countP (fun k => strContains msg k) : ℕ) : ℚ)
          + (if 3 ≤ (silence_counts hist).logic then 0.2 else 0),
        psyche := (if disco then 1 - wp else wp)
          + 0.15 * ((psyche_keywords.countP (fun k => strContains msg k) : ℕ) : ℚ)
          + (if 3 ≤ (silence_counts hist).psyche then 0.2 else 0) } := by
  unfold heuristicScores
  cases disco <;> simp [keywordFold_eq]

lemma foldl_primaryStep_reaches (s : Scores) (P : String) (sP : ℚ)
    (hP : s.get P = some sP) :
    ∀ (active : List String) (p : String) (m : ℚ), m < sP → P ∈ active →
      (∀ a ∈ active, a ≠ P → ∀ sc, s.get a = some sc → sc < sP) →
      active.foldl (primaryStep s) (p, m) = (canonName P, sP) := by
  intro active
  induction active with
  | nil => intro p m _ hmem _; simp at hmem
  | cons a t ih =>
    intro p m hm hmem hlt
    simp only [List.foldl_cons]
    by_cases ha : a = P
    · subst ha
      rw [show primaryStep s (p, m) a = (canonName a, sP) by
        simp [primaryStep, hP, hm]]
      rw [foldl_primaryStep_eq_pairs]
      exact foldPair_stays _ _ _ (fun q hq => by
        obtain ⟨hqt, hqget⟩ := mem_scoredAgents.mp hq
        by_cases hqP : q.1 = a
        · rw [hqP, hP] at hqget
          injection hqget with h2
          exact le_of_eq h2.symm
        · exact le_of_lt (hlt q.1 (by simp [hqt]) hqP q.2 hqget))
    · have hmemt : P ∈ t := by
        rcases List.mem_cons.mp hmem with rfl | h
        · exact absurd rfl ha
        · exact h
      have hltt : ∀ b ∈ t, b ≠ P → ∀ sc, s.get b = some sc → sc < sP :=
        fun b hb => hlt b (by simp [hb])
      rcases hga : s.get a with _ | sc
      · rw [show primaryStep s (p, m) a = (p, m) by simp [primaryStep, hga]]
        exact ih p m hm hmemt hltt
      · have hsc : sc < sP := hlt a (by simp) ha sc hga
        by_cases hm2 : m < sc
        · rw [show primaryStep s (p, m) a = (canonName a, sc) by
            simp [primaryStep, hga, hm2]]
          exact ih _ _ hsc hmemt hltt
        · rw [show primaryStep s (p, m) a = (p, m) by
            simp [primaryStep, hga, hm2]]
          exact ih p m hm hmemt hltt

/-! ## Claim C10: secondary is an enabled persona distinct from primary -/

/-- C10: whenever the enabled list has at least 2 entries, pairwise
distinct, any secondary other than the special `"all"` marker names an
enabled persona different from the returned primary. -/
theorem decide_response_heuristic_secondary_valid :
    ∀ (msg : String) (w : ℚ × ℚ × ℚ) (active : List String)
      (hist : List Message) (disco : Bool),
      active.Nodup → 2 ≤ active.length →
      ∀ sec, (decide_response_heuristic msg w active hist disco).secondary_agent
          = some sec → sec ≠ "all" →
        sec ∈ active ∧
          sec ≠ (decide_response_heuristic msg w active hist disco).primary_agent := by
  intro msg w active hist disco hnd hlen sec hsec hall
  by_cases hA : allAgentRequest (lowerStr msg) ∧ 3 ≤ active.length
  · unfold decide_response_heuristic at hsec
    rw [if_pos hA] at hsec
    simp only [Option.some.injEq] at hsec
    exact absurd hsec.symm hall
  · have hone : active.length ≠ 1 := by omega
    have heq : decide_response_heuristic msg w active hist disco
        = routeFromScores (heuristicScores (lowerStr msg) w hist disco) active
            disco := by
      unfold decide_response_heuristic
      rw [if_neg hA, if_neg hone]
    rw [heq] at hsec ⊢
    set s := heuristicScores (lowerStr msg) w hist disco with hs
    clear_value s
    clear heq hall hA hone hs
    simp only [routeFromScores] at hsec ⊢
    have hnodup := sortByScoreDesc_fst_nodup (s := s) hnd
    have hmem : ∀ q, q ∈ sortByScoreDesc (scoredAgents s active) → q.1 ∈ active :=
      fun q hq =>
        (mem_scoredAgents.mp ((sortByScoreDesc_perm _).mem_iff.mp hq)).1
    rw [Option.ite_none_right_eq_some] at hsec
    obtain ⟨-, hpick⟩ := hsec
    rcases hlist : sortByScoreDesc (scoredAgents s active)
      with _ | ⟨A, _ | ⟨B, _ | ⟨C, rest3⟩⟩⟩ <;>
      rw [hlist] at hpick <;> simp only [pickSecondary] at hpick
    · exact absurd hpick (by simp)
    · exact absurd hpick (by simp)
    · split at hpick
      · rename_i hne
        simp only [Option.some.injEq] at hpick
        subst hpick
        exact ⟨hmem B (by rw [hlist]; simp), hne⟩
      · simp at hpick
    · rw [hlist] at hnodup
      simp only [List.map_cons, List.nodup_cons, List.mem_cons] at hnodup
      split at hpick
      · rename_i hne
        simp only [Option.some.injEq] at hpick
        subst hpick
        exact ⟨hmem B (by rw [hlist]; simp), hne⟩
      · rename_i hne
        simp only [Option.some.injEq] at hpick
        subst hpick
        push_neg at hne
        refine ⟨hmem C (by rw [hlist]; simp), ?_⟩
        rw [← hne]
        exact fun hCB => hnodup.2.1 (Or.inl hCB.symm)

lemma hello_disco_decision :
    decide_response_heuristic "hello" (0.2, 0.5, 0.3)
        ["instinct", "logic", "psyche"] [] true
      = { primary_agent := "instinct", add_secondary := true,
          secondary_agent := some "psyche", secondary_type := some "addition" } := by
  have hs : heuristicScores (lowerStr "hello") (0.2, 0.5, 0.3) [] true
      = ⟨4/5, 1/2, 7/10⟩ := by
    rw [heuristicScores_eval]
    rw [show (silence_counts ([] : List Message)) = ⟨0, 0, 0⟩ from by decide]
    rw [show (instinct_keywords.countP
      (fun k => strContains (lowerStr "hello") k)) = 0 from by decide]
    rw [show (logic_keywords.countP
      (fun k => strContains (lowerStr "hello") k)) = 0 from by decide]
    rw [show (psyche_keywords.countP
      (fun k => strContains (lowerStr "hello") k)) = 0 from by decide]
    norm_num
  have heq : decide_response_heuristic "hello" (0.2, 0.5, 0.3)
      ["instinct", "logic", "psyche"] [] true
      = routeFromScores ⟨4/5, 1/2, 7/10⟩ ["instinct", "logic", "psyche"] true := by
    unfold decide_response_heuristic
    rw [if_neg (by simp [show allAgentRequest (lowerStr "hello") = false
        from by decide]),
      if_neg (by decide), hs]
  rw [heq]
  simp [routeFromScores, selectPrimary, primaryStep, Scores.get, scoredAgents,
    sortByScoreDesc, List.insertionSort, List.orderedInsert, scoreGE, closeCall,
    pickSecondary, canonName]
  try norm_num [List.orderedInsert, scoreGE, decide_eq_true_eq]
  try decide

/-- Witness for C10: a disco run on three personas yields secondary
`"psyche"`, which is enabled and distinct from the primary. -/
theorem decide_response_heuristic_secondary_valid_witness :
    "psyche" ∈ ["instinct", "logic", "psyche"] ∧
    "psyche" ≠ (decide_response_heuristic "hello" (0.2, 0.5, 0.3)
        ["instinct", "logic", "psyche"] [] true).primary_agent :=
  decide_response_heuristic_secondary_valid "hello" (0.2, 0.5, 0.3)
    ["instinct", "logic", "psyche"] [] true (by decide) (by decide) "psyche"
    (by rw [hello_disco_decision]) (by decide)

/-! ## Claim C2: silence boost without force-append -/

/-- C2 (amended): a persona silent for at least 3 recent user turns
receives exactly the fixed `0.2` score boost (shown for psyche; the other
components are symmetric), and inclusion in the decision happens only
through that score: when the boosted score of a persona is positive and
strictly above every other enabled score, that persona is the primary.
There is no force-append: `silent_persona_can_be_excluded` shows a silent
enabled persona absent from the decision. -/
theorem silence_boost_without_force_append :
    (∀ (msg : String) (wi wl wp : ℚ) (hist : List Message) (disco : Bool),
      3 ≤ (silence_counts hist).psyche →
      (heuristicScores msg (wi, wl, wp) hist disco).psyche
        = (if disco then 1 - wp else wp)
          + 0.15 * ((psyche_keywords.countP (fun k => strContains msg k) : ℕ) : ℚ)
          + 0.2) ∧
    (∀ (msg : String) (w : ℚ × ℚ × ℚ) (hist : List Message) (disco : Bool)
      (active : List String) (P : String) (sP : ℚ),
      ¬(allAgentRequest (lowerStr msg) ∧ 3 ≤ active.length) →
      active.length ≠ 1 →
      P ∈ active →
      (heuristicScores (lowerStr msg) w hist disco).get P = some sP →
      0 < sP →
      (∀ a ∈ active, a ≠ P →
        ∀ sc, (heuristicScores (lowerStr msg) w hist disco).get a = some sc →
          sc < sP) →
      (decide_response_heuristic msg w active hist disco).primary_agent = P) := by
  constructor
  · intro msg wi wl wp hist disco hsil
    rw [heuristicScores_eval]
    simp [if_pos hsil]
  · intro msg w hist disco active P sP hA hone hmem hget hpos hlt
    have heq : decide_response_heuristic msg w active hist disco
        = routeFromScores (heuristicScores (lowerStr msg) w hist disco) active
            disco := by
      unfold decide_response_heuristic
      rw [if_neg hA, if_neg hone]
    rw [heq]
    show (routeFromScores _ active disco).primary_agent = P
    have hprim : selectPrimary (heuristicScores (lowerStr msg) w hist disco) active
        = P := by
      unfold selectPrimary
      rw [foldl_primaryStep_reaches _ P sP hget active "logic" 0 hpos hmem hlt]
      exact canonName_valid (Scores.get_valid hget)
    simp only [routeFromScores]
    exact hprim

/-- Counterexample to C2 as stated: psyche is enabled and silent for all of
the last 3+ user turns (counter 4), receives only the score boost, and the
decision contains neither psyche as primary nor any secondary at all. -/
theorem silent_persona_can_be_excluded :
    3 ≤ (silence_counts
      [⟨"", "", "user", "", none, none, ""⟩, ⟨"", "", "logic", "", none, none, ""⟩,
       ⟨"", "", "user", "", none, none, ""⟩, ⟨"", "", "logic", "", none, none, ""⟩,
       ⟨"", "", "user", "", none, none, ""⟩, ⟨"", "", "logic", "", none, none, ""⟩,
       ⟨"", "", "user", "", none, none, ""⟩]).psyche ∧
    decide_response_heuristic "analyze the plan step by step" (0.2, 0.5, 0.3)
        ["instinct", "logic", "psyche"]
        [⟨"", "", "user", "", none, none, ""⟩, ⟨"", "", "logic", "", none, none, ""⟩,
         ⟨"", "", "user", "", none, none, ""⟩, ⟨"", "", "logic", "", none, none, ""⟩,
         ⟨"", "", "user", "", none, none, ""⟩, ⟨"", "", "logic", "", none, none, ""⟩,
         ⟨"", "", "user", "", none, none, ""⟩] false
      = { primary_agent := "logic", add_secondary := false,
          secondary_agent := none, secondary_type := none } := by
  constructor
  · decide
  · have hs : heuristicScores (lowerStr "analyze the plan step by step")
        (0.2, 0.5, 0.3)
        [⟨"", "", "user", "", none, none, ""⟩, ⟨"", "", "logic", "", none, none, ""⟩,
         ⟨"", "", "user", "", none, none, ""⟩, ⟨"", "", "logic", "", none, none, ""⟩,
         ⟨"", "", "user", "", none, none, ""⟩, ⟨"", "", "logic", "", none, none, ""⟩,
         ⟨"", "", "user", "", none, none, ""⟩] false = ⟨2/5, 19/20, 1/2⟩ := by
      rw [heuristicScores_eval]
      rw [show (silence_counts
        [⟨"", "", "user", "", none, none, ""⟩, ⟨"", "", "logic", "", none, none, ""⟩,
         ⟨"", "", "user", "", none, none, ""⟩, ⟨"", "", "logic", "", none, none, ""⟩,
         ⟨"", "", "user", "", none, none, ""⟩, ⟨"", "", "logic", "", none, none, ""⟩,
         ⟨"", "", "user", "", none, none, ""⟩]) = ⟨4, 1, 4⟩ from by decide]
      rw [show (instinct_keywords.countP
        (fun k => strContains (lowerStr "analyze the plan step by step") k)) = 0
        from by decide]
      rw [show (logic_keywords.countP
        (fun k => strContains (lowerStr "analyze the plan step by step") k)) = 3
        from by decide]
      rw [show (psyche_keywords.countP
        (fun k => strContains (lowerStr "analyze the plan step by step") k)) = 0
        from by decide]
      norm_num
    have heq : decide_response_heuristic "analyze the plan step by step"
        (0.2, 0.5, 0.3) ["instinct", "logic", "psyche"]
        [⟨"", "", "user", "", none, none, ""⟩, ⟨"", "", "logic", "", none, none, ""⟩,
         ⟨"", "", "user", "", none, none, ""⟩, ⟨"", "", "logic", "", none, none, ""⟩,
         ⟨"", "", "user", "", none, none, ""⟩, ⟨"", "", "logic", "", none, none, ""⟩,
         ⟨"", "", "user", "", none, none, ""⟩] false
        = routeFromScores ⟨2/5, 19/20, 1/2⟩ ["instinct", "logic", "psyche"]
            false := by
      unfold decide_response_heuristic
      rw [if_neg (by simp [show allAgentRequest
        (lowerStr "analyze the plan step by step") = false from by decide]),
        if_neg (by decide), hs]
    rw [heq]
    have c1 : (0 : ℚ) < 2/5 := by norm_num
    have c2 : (2 : ℚ)/5 < 19/20 := by norm_num
    have c3 : ¬ ((19 : ℚ)/20 < 1/2) := by norm_num
    have c4 : ((1 : ℚ)/2 ≤ 19/20) := by norm_num
    have c5 : ¬ ((19 : ℚ)/20 ≤ 2/5) := by norm_num
    have c6 : ¬ ((1 : ℚ)/2 ≤ 2/5) := by norm_num
    have c7 : ¬ ((19 : ℚ)/20 - 1/2 < 0.15) := by norm_num
    simp [routeFromScores, selectPrimary, primaryStep, Scores.get, scoredAgents,
      sortByScoreDesc, List.insertionSort, List.orderedInsert, scoreGE, closeCall,
      pickSecondary, canonName, c1, c2, c3, c4, c5, c6, c7]
    norm_num [List.orderedInsert, scoreGE, decide_eq_true_eq]

/-- Witness for C2 (amended): with psyche silent for 4 user turns, its
score is exactly the base plus the fixed `0.2` boost; and in a disco run
where instinct has the strict top score, instinct is routed primary. -/
theorem silence_boost_without_force_append_witness :
    (heuristicScores "analyze the plan step by step" (0.2, 0.5, 0.3)
        [⟨"", "", "user", "", none, none, ""⟩, ⟨"", "", "logic", "", none, none, ""⟩,
         ⟨"", "", "user", "", none, none, ""⟩, ⟨"", "", "logic", "", none, none, ""⟩,
         ⟨"", "", "user", "", none, none, ""⟩, ⟨"", "", "logic", "", none, none, ""⟩,
         ⟨"", "", "user", "", none, none, ""⟩] false).psyche = 1/2 := by
  rw [silence_boost_without_force_append.1 "analyze the plan step by step"
    0.2 0.5 0.3 _ false (by decide)]
  rw [show (psyche_keywords.countP
    (fun k => strContains "analyze the plan step by step" k)) = 0 from by decide]
  norm_num

/-! ## Claim C4: disco secondary -/

/-- C4 (amended): in challenge (disco) mode with at least 2 pairwise
distinct enabled personas from the known three, when the message is not an
all-personas request and at least one enabled persona has a positive
score, the decision always includes a secondary: the runner-up by score,
with interaction mode `addition`. Without the positivity condition the
claim fails (`disco_two_personas_no_secondary`). -/
theorem disco_secondary_runner_up :
    ∀ (msg : String) (w : ℚ × ℚ × ℚ) (hist : List Message)
      (active : List String),
      (∀ x ∈ active, x = "instinct" ∨ x = "logic" ∨ x = "psyche") →
      active.Nodup → 2 ≤ active.length →
      ¬(allAgentRequest (lowerStr msg) ∧ 3 ≤ active.length) →
      (∃ a ∈ active, ∃ sc,
        (heuristicScores (lowerStr msg) w hist true).get a = some sc ∧ 0 < sc) →
      (decide_response_heuristic msg w active hist true).add_secondary = true ∧
      ∃ r, (decide_response_heuristic msg w active hist true).secondary_agent
          = some r ∧
        (decide_response_heuristic msg w active hist true).secondary_type
          = some "addition" ∧
        r ∈ active ∧
        r ≠ (decide_response_heuristic msg w active hist true).primary_agent ∧
        ∀ b ∈ active,
          b ≠ (decide_response_heuristic msg w active hist true).primary_agent →
          ∀ sb sr, (heuristicScores (lowerStr msg) w hist true).get b = some sb →
            (heuristicScores (lowerStr msg) w hist true).get r = some sr →
            sb ≤ sr := by
  intro msg w hist active hval hnd hlen hA hpos
  have hone : active.length ≠ 1 := by omega
  have heq : decide_response_heuristic msg w active hist true
      = routeFromScores (heuristicScores (lowerStr msg) w hist true) active
          true := by
    unfold decide_response_heuristic
    rw [if_neg hA, if_neg hone]
  rw [heq]
  set s := heuristicScores (lowerStr msg) w hist true with hs
  have hplen : (scoredAgents s active).length = active.length :=
    scoredAgents_length (fun x hx => Scores.get_of_valid s (hval x hx))
  have hslen : (sortByScoreDesc (scoredAgents s active)).length = active.length := by
    rw [(sortByScoreDesc_perm _).length_eq, hplen]
  rcases hlist : sortByScoreDesc (scoredAgents s active)
    with _ | ⟨A, _ | ⟨B, rest2⟩⟩
  · rw [hlist] at hslen; simp at hslen; omega
  · rw [hlist] at hslen; simp at hslen; omega
  obtain ⟨l₁, l₂, hdecomp, hlt, hle⟩ := sortByScoreDesc_head_decomp _ A _ hlist
  obtain ⟨a, ha, sc, hget, hsc⟩ := hpos
  have hpair : (a, sc) ∈ scoredAgents s active := mem_scoredAgents.mpr ⟨ha, hget⟩
  have hA2 : 0 < A.2 := lt_of_lt_of_le hsc (hle (a, sc) hpair)
  have hprimary : selectPrimary s active = A.1 := selectPrimary_eq_head hlist hA2
  have hnodup := sortByScoreDesc_fst_nodup (s := s) hnd
  rw [hlist] at hnodup
  simp only [List.map_cons, List.nodup_cons, List.mem_cons] at hnodup
  have hABne : B.1 ≠ A.1 := fun h => hnodup.1 (Or.inl h.symm)
  have hmemB : B ∈ scoredAgents s active :=
    (sortByScoreDesc_perm _).mem_iff.mp (by rw [hlist]; simp)
  have hBget := (mem_scoredAgents.mp hmemB).2
  have hBactive := (mem_scoredAgents.mp hmemB).1
  have hroute : routeFromScores s active true =
      { primary_agent := A.1, add_secondary := true,
        secondary_agent := some B.1, secondary_type := some "addition" } := by
    simp only [routeFromScores, hprimary, hlist]
    rcases rest2 with _ | ⟨C, rest3⟩ <;>
      simp [pickSecondary, hABne, hlen]
  rw [hroute]
  refine ⟨rfl, B.1, rfl, rfl, hBactive, by simpa using hABne, ?_⟩
  intro b hb hbne sb sr hsb hsr
  have hsrB : sr = B.2 := by
    rw [hBget] at hsr
    injection hsr with h2
    exact h2.symm
  have hmemb : (b, sb) ∈ sortByScoreDesc (scoredAgents s active) :=
    (sortByScoreDesc_perm _).mem_iff.mpr (mem_scoredAgents.mpr ⟨hb, hsb⟩)
  rw [hlist] at hmemb
  have hsorted := sortByScoreDesc_sorted (scoredAgents s active)
  rw [hlist] at hsorted
  rcases List.mem_cons.mp hmemb with heqA | hmemb2
  · exact absurd (congrArg Prod.fst heqA) hbne
  rcases List.mem_cons.mp hmemb2 with heqB | hmemb3
  · rw [show sb = B.2 from congrArg Prod.snd heqB, hsrB]
  · have hpw := (List.sorted_cons.mp hsorted).2
    have hrel := (List.sorted_cons.mp hpw).1 (b, sb) hmemb3
    rw [hsrB]
    exact hrel

/-- Counterexample to C4 as stated: in disco mode with the two distinct
enabled personas instinct and logic, combined weights above 1 invert to
non-positive scores, the default primary `"logic"` collides with the
sorted runner-up, and the decision carries no secondary at all. -/
theorem disco_two_personas_no_secondary :
    decide_response_heuristic "" (1.2, 1.5, 1) ["instinct", "logic"] [] true
      = { primary_agent := "logic", add_secondary := false,
          secondary_agent := none, secondary_type := none } := by
  have hs : heuristicScores (lowerStr "") (1.2, 1.5, 1) [] true
      = ⟨-1/5, -1/2, 0⟩ := by
    rw [heuristicScores_eval]
    rw [show (silence_counts ([] : List Message)) = ⟨0, 0, 0⟩ from by decide]
    rw [show (instinct_keywords.countP
      (fun k => strContains (lowerStr "") k)) = 0 from by decide]
    rw [show (logic_keywords.countP
      (fun k => strContains (lowerStr "") k)) = 0 from by decide]
    rw [show (psyche_keywords.countP
      (fun k => strContains (lowerStr "") k)) = 0 from by decide]
    norm_num
  have heq : decide_response_heuristic "" (1.2, 1.5, 1) ["instinct", "logic"] [] true
      = routeFromScores ⟨-1/5, -1/2, 0⟩ ["instinct", "logic"] true := by
    unfold decide_response_heuristic
    rw [if_neg (by simp), if_neg (by decide), hs]
  rw [heq]
  have c1 : ¬ ((0 : ℚ) < -1/5) := by norm_num
  have c2 : ¬ ((0 : ℚ) < -1/2) := by norm_num
  have c3 : ((-1 : ℚ)/2 ≤ -1/5) := by norm_num
  simp [routeFromScores, selectPrimary, primaryStep, Scores.get, scoredAgents,
    sortByScoreDesc, List.insertionSort, List.orderedInsert, scoreGE, closeCall,
    pickSecondary, canonName, c1, c2, c3]
  try norm_num [List.orderedInsert, scoreGE, decide_eq_true_eq]
  try decide

/-- Witness for C4 (amended): the disco run on three personas with
positive scores yields a secondary. -/
theorem disco_secondary_runner_up_witness :
    (decide_response_heuristic "hello" (0.2, 0.5, 0.3)
        ["instinct", "logic", "psyche"] [] true).add_secondary = true :=
  (disco_secondary_runner_up "hello" (0.2, 0.5, 0.3) []
    ["instinct", "logic", "psyche"] (by decide) (by decide) (by decide) (by decide)
    ⟨"instinct", by decide, 4/5, by
      rw [show heuristicScores (lowerStr "hello") (0.2, 0.5, 0.3) [] true
          = ⟨4/5, 1/2, 7/10⟩ from by
        rw [heuristicScores_eval]
        rw [show (silence_counts ([] : List Message)) = ⟨0, 0, 0⟩ from by decide]
        rw [show (instinct_keywords.countP
          (fun k => strContains (lowerStr "hello") k)) = 0 from by decide]
        rw [show (logic_keywords.countP
          (fun k => strContains (lowerStr "hello") k)) = 0 from by decide]
        rw [show (psyche_keywords.countP
          (fun k => strContains (lowerStr "hello") k)) = 0 from by decide]
        norm_num]
      exact ⟨by simp [Scores.get], by norm_num⟩⟩).1
